import Mathlib

/-!
Shallow embedding of the `vcr-cassette` crate (src/lib.rs): the schema
types (`Cassette`, `HttpInteraction`, `Request`, `Response`, `Body`,
`Status`, `Method`, `Version`) together with the serde-derived decode and
encode behaviour, expressed over a serializer-agnostic structured-node
type `Json`.  The `datetime` module referenced by `lib.rs` is not part of
the sources, so the RFC 2822 timestamp codec is modelled from the spec.
-/

namespace Vcr

/-- Structured node fed to / produced by the external serializer
(JSON or YAML); objects keep their fields as an ordered association list. -/
inductive Json where
  | null
  | bool (b : Bool)
  | num (n : Int)
  | str (s : String)
  | arr (xs : List Json)
  | obj (fields : List (String × Json))

/-- `enum Method` from src/lib.rs: nine unit variants plus `Other(String)`. -/
inductive Method where
  | Connect
  | Delete
  | Get
  | Head
  | Options
  | Patch
  | Post
  | Put
  | Trace
  | Other (s : String)
  deriving Repr, DecidableEq

/-- The serde wire name of each unit variant of `Method`
(`#[serde(rename_all = "lowercase")]`). -/
def unitMethodOfToken (s : String) : Option Method :=
  if s = "connect" then some .Connect
  else if s = "delete" then some .Delete
  else if s = "get" then some .Get
  else if s = "head" then some .Head
  else if s = "options" then some .Options
  else if s = "patch" then some .Patch
  else if s = "post" then some .Post
  else if s = "put" then some .Put
  else if s = "trace" then some .Trace
  else none

/-- Serde-derived `Deserialize` for `Method`: an externally tagged enum.
A bare string selects a unit variant by its (lowercased) name; the newtype
variant `Other` is only reachable through the single-entry map form
`\x7b"other": <string>\x7d`; any other tag is an unknown-variant error. -/
def decodeMethod : Json → Except String Method
  | .str s =>
    match unitMethodOfToken s with
    | some m => .ok m
    | none =>
      if s = "other" then
        .error "invalid type: unit variant, expected newtype variant"
      else
        .error ("unknown variant " ++ s)
  | .obj [(k, v)] =>
    match unitMethodOfToken k with
    | some m =>
      match v with
      | .null => .ok m
      | _ => .error "invalid type: expected unit"
    | none =>
      if k = "other" then
        match v with
        | .str s => .ok (.Other s)
        | _ => .error "invalid type: expected string"
      else
        .error ("unknown variant " ++ k)
  | _ => .error "expected string or map"

/-- Serde-derived `Serialize` for `Method`: unit variants emit their
lowercase wire name as a string node; `Other(s)` emits the externally
tagged map `\x7b"other": s\x7d`. -/
def encodeMethod : Method → Json
  | .Connect => .str "connect"
  | .Delete => .str "delete"
  | .Get => .str "get"
  | .Head => .str "head"
  | .Options => .str "options"
  | .Patch => .str "patch"
  | .Post => .str "post"
  | .Put => .str "put"
  | .Trace => .str "trace"
  | .Other s => .obj [("other", .str s)]

/-- `Method::as_str` from src/lib.rs: the canonical uppercase token, or the
stored string for `Other`. -/
def Method.as_str : Method → String
  | .Connect => "CONNECT"
  | .Delete => "DELETE"
  | .Get => "GET"
  | .Head => "HEAD"
  | .Options => "OPTIONS"
  | .Patch => "PATCH"
  | .Post => "POST"
  | .Put => "PUT"
  | .Trace => "TRACE"
  | .Other s => s

/-- `enum Version` from src/lib.rs: five unit variants, `#[non_exhaustive]`. -/
inductive Version where
  | Http0_9
  | Http1_0
  | Http1_1
  | Http2_0
  | Http3_0
  deriving Repr, DecidableEq, Fintype

/-- The `#[serde(rename = ...)]` wire token of each `Version` variant. -/
def versionToken : Version → String
  | .Http0_9 => "0.9"
  | .Http1_0 => "1.0"
  | .Http1_1 => "1.1"
  | .Http2_0 => "2"
  | .Http3_0 => "3"

/-- Inverse of `versionToken` on the five wire tokens. -/
def versionOfToken (s : String) : Option Version :=
  if s = "0.9" then some .Http0_9
  else if s = "1.0" then some .Http1_0
  else if s = "1.1" then some .Http1_1
  else if s = "2" then some .Http2_0
  else if s = "3" then some .Http3_0
  else none

/-- Serde-derived `Deserialize` for `Version`: a bare string must be one of
the five renamed tokens; there is no fallback variant. -/
def decodeVersion : Json → Except String Version
  | .str s =>
    match versionOfToken s with
    | some v => .ok v
    | none => .error ("unknown variant " ++ s)
  | .obj [(k, v)] =>
    match versionOfToken k with
    | some ver =>
      match v with
      | .null => .ok ver
      | _ => .error "invalid type: expected unit"
    | none => .error ("unknown variant " ++ k)
  | _ => .error "expected string or map"

/-- Serde-derived `Serialize` for `Version`: each variant emits its token. -/
def encodeVersion (v : Version) : Json :=
  .str (versionToken v)

/-- The declaration index of each `Version` variant; the derived `Ord`
instance compares variants by this index. -/
def versionRank : Version → Nat
  | .Http0_9 => 0
  | .Http1_0 => 1
  | .Http1_1 => 2
  | .Http2_0 => 3
  | .Http3_0 => 4

/-- The derived `Ord::lt` on `Version`: declaration order. -/
def versionLt (a b : Version) : Bool :=
  versionRank a < versionRank b

/-- The derived `PartialEq::eq` on `Version`. -/
def versionEq (a b : Version) : Bool :=
  versionRank a = versionRank b

/-- `struct Body` from src/lib.rs. -/
structure Body where
  encoding : Option String
  string : String
  deriving Repr, DecidableEq

/-- `impl FromStr for Body` from src/lib.rs: the error type is the
uninhabited `Void` (Lean `Empty`), so this conversion can never fail. -/
def Body.from_str (s : String) : Except Empty Body :=
  .ok { encoding := none, string := s }

/-- Decode an optional string field (serde `Option<String>`). -/
def decodeOptString : Json → Except String (Option String)
  | .null => .ok none
  | .str s => .ok (some s)
  | _ => .error "invalid type: expected string or null"

/-- Serde-derived `Deserialize` for `Body` from a map node: `string` is
required (its absence is a missing-field error), `encoding` is optional
(absent means `None`); unknown fields are ignored. -/
def decodeBodyStruct (fields : List (String × Json)) : Except String Body := do
  let enc ←
    match fields.lookup "encoding" with
    | none => pure none
    | some v => decodeOptString v
  let str ←
    match fields.lookup "string" with
    | none => Except.error "missing field string"
    | some (.str s) => pure s
    | some _ => Except.error "invalid type: expected string"
  pure { encoding := enc, string := str }

/-- The `string_or_struct` adapter from src/lib.rs instantiated at `Body`:
a scalar string node goes through the infallible `Body.from_str` (the
`Empty` error is eliminated, mirroring the `.unwrap()` on `Void`); a map
node goes through the derived struct decoder; anything else is an error. -/
def decodeBodyField : Json → Except String Body
  | .str s =>
    match Body.from_str s with
    | .ok b => .ok b
    | .error e => e.elim
  | .obj fields => decodeBodyStruct fields
  | _ => .error "expected string or map"

/-- Serde-derived `Serialize` for `Body`: always the structured map form
with fields `encoding` and `string` in declaration order. -/
def encodeBody (b : Body) : Json :=
  .obj [("encoding", match b.encoding with
                     | none => .null
                     | some s => .str s),
        ("string", .str b.string)]

/-! ### Timestamp codec

`lib.rs` marks `recorded_at` with `#[serde(with = "datetime")]`, but the
`datetime` module itself is not among the sources, so the codec below is
modelled from the spec (section 4.3 of the design document): decode parses
an RFC 2822 date-time with an explicit numeric or named UTC offset into an
instant paired with that fixed offset; encode renders the instant and its
retained offset back to RFC 2822 text with canonical spacing, weekday and
month abbreviations, the zero offset printed as `GMT` so that re-encoding
the documented example reproduces it identically. -/

/-- Modelled from the spec: the value produced by the missing `datetime`
module, a fixed-offset instant: calendar date, time of day, and the UTC
offset in minutes (preserved, not collapsed to UTC). -/
structure DateTime2822 where
  year : Nat
  month : Nat
  day : Nat
  hour : Nat
  minute : Nat
  second : Nat
  offset : Int
  deriving Repr, DecidableEq

/-- Gregorian leap-year rule. -/
def isLeapYear (y : Nat) : Bool :=
  (y % 4 = 0 && y % 100 ≠ 0) || y % 400 = 0

/-- Number of days in a month of a given year. -/
def daysInMonth (y m : Nat) : Nat :=
  if m = 2 then (if isLeapYear y then 29 else 28)
  else if m = 4 ∨ m = 6 ∨ m = 9 ∨ m = 11 then 30
  else 31

/-- Day of the week of a calendar date, 0 = Sunday (Sakamoto's method). -/
def weekdayOf (year month day : Nat) : Nat :=
  let y := if month < 3 then year - 1 else year
  let t := [0, 3, 2, 5, 0, 3, 5, 1, 4, 6, 2, 4]
  ((y + y / 4 + y / 400) - y / 100 + t.getD (month - 1) 0 + day) % 7

/-- The RFC 2822 weekday abbreviations, indexed 0 = Sunday. -/
def dayChars : Nat → List Char
  | 0 => ['S', 'u', 'n']
  | 1 => ['M', 'o', 'n']
  | 2 => ['T', 'u', 'e']
  | 3 => ['W', 'e', 'd']
  | 4 => ['T', 'h', 'u']
  | 5 => ['F', 'r', 'i']
  | _ => ['S', 'a', 't']

/-- The RFC 2822 month abbreviations, indexed 1 = January. -/
def monthChars : Nat → List Char
  | 1 => ['J', 'a', 'n']
  | 2 => ['F', 'e', 'b']
  | 3 => ['M', 'a', 'r']
  | 4 => ['A', 'p', 'r']
  | 5 => ['M', 'a', 'y']
  | 6 => ['J', 'u', 'n']
  | 7 => ['J', 'u', 'l']
  | 8 => ['A', 'u', 'g']
  | 9 => ['S', 'e', 'p']
  | 10 => ['O', 'c', 't']
  | 11 => ['N', 'o', 'v']
  | _ => ['D', 'e', 'c']

/-- Numeric value of an ASCII digit character. -/
def digit? (c : Char) : Option Nat :=
  if '0' ≤ c ∧ c ≤ '9' then some (c.toNat - 48) else none

/-- ASCII digit character of a value below ten. -/
def digitChar (d : Nat) : Char :=
  Char.ofNat (48 + d)

/-- Two-digit zero-padded decimal rendering. -/
def pad2 (n : Nat) : List Char :=
  [digitChar (n / 10), digitChar (n % 10)]

/-- Four-digit zero-padded decimal rendering. -/
def pad4 (n : Nat) : List Char :=
  [digitChar (n / 1000), digitChar (n / 100 % 10), digitChar (n / 10 % 10),
   digitChar (n % 10)]

/-- Consume exactly two decimal digits. -/
def parse2 : List Char → Option (Nat × List Char)
  | c1 :: c2 :: rest => do
    let d1 ← digit? c1
    let d2 ← digit? c2
    pure (d1 * 10 + d2, rest)
  | _ => none

/-- Consume exactly four decimal digits. -/
def parse4 : List Char → Option (Nat × List Char)
  | c1 :: c2 :: c3 :: c4 :: rest => do
    let d1 ← digit? c1
    let d2 ← digit? c2
    let d3 ← digit? c3
    let d4 ← digit? c4
    pure (d1 * 1000 + d2 * 100 + d3 * 10 + d4, rest)
  | _ => none

/-- Consume one or two decimal digits. -/
def parse1or2 : List Char → Option (Nat × List Char)
  | c1 :: rest => do
    let d1 ← digit? c1
    match rest with
    | c2 :: rest2 =>
      match digit? c2 with
      | some d2 => pure (d1 * 10 + d2, rest2)
      | none => pure (d1, rest)
    | [] => pure (d1, [])
  | [] => none

/-- Consume one expected character. -/
def expectChar (c : Char) : List Char → Option (List Char)
  | x :: rest => if x = c then some rest else none
  | [] => none

/-- Consume a fixed token. -/
def stripToken : List Char → List Char → Option (List Char)
  | [], rest => some rest
  | t :: ts, c :: rest => if c = t then stripToken ts rest else none
  | _ :: _, [] => none

/-- Try to consume the weekday prefix of index `w` together with the
following comma and space. -/
def tryDow (w : Nat) (cs : List Char) : Option (List Char) := do
  let cs ← stripToken (dayChars w) cs
  let cs ← expectChar ',' cs
  expectChar ' ' cs

/-- Consume an optional `day-of-week ","` prefix. -/
def parseDow (cs : List Char) : Option Nat × List Char :=
  match tryDow 0 cs with
  | some r => (some 0, r)
  | none =>
  match tryDow 1 cs with
  | some r => (some 1, r)
  | none =>
  match tryDow 2 cs with
  | some r => (some 2, r)
  | none =>
  match tryDow 3 cs with
  | some r => (some 3, r)
  | none =>
  match tryDow 4 cs with
  | some r => (some 4, r)
  | none =>
  match tryDow 5 cs with
  | some r => (some 5, r)
  | none =>
  match tryDow 6 cs with
  | some r => (some 6, r)
  | none => (none, cs)

/-- Consume a month abbreviation, producing the 1-based month number. -/
def parseMonth (cs : List Char) : Option (Nat × List Char) :=
  match stripToken (monthChars 1) cs with
  | some r => some (1, r)
  | none =>
  match stripToken (monthChars 2) cs with
  | some r => some (2, r)
  | none =>
  match stripToken (monthChars 3) cs with
  | some r => some (3, r)
  | none =>
  match stripToken (monthChars 4) cs with
  | some r => some (4, r)
  | none =>
  match stripToken (monthChars 5) cs with
  | some r => some (5, r)
  | none =>
  match stripToken (monthChars 6) cs with
  | some r => some (6, r)
  | none =>
  match stripToken (monthChars 7) cs with
  | some r => some (7, r)
  | none =>
  match stripToken (monthChars 8) cs with
  | some r => some (8, r)
  | none =>
  match stripToken (monthChars 9) cs with
  | some r => some (9, r)
  | none =>
  match stripToken (monthChars 10) cs with
  | some r => some (10, r)
  | none =>
  match stripToken (monthChars 11) cs with
  | some r => some (11, r)
  | none =>
  match stripToken (monthChars 12) cs with
  | some r => some (12, r)
  | none => none

/-- Consume the UTC offset: `+HHMM`, `-HHMM`, or a named zone normalized to
its numeric offset in minutes. -/
def parseZone (cs : List Char) : Option (Int × List Char) :=
  match cs with
  | '+' :: rest =>
    match parse2 rest with
    | none => none
    | some (h, rest) =>
      match parse2 rest with
      | none => none
      | some (m, rest) =>
        if m < 60 then some ((h * 60 + m : Nat), rest) else none
  | '-' :: rest =>
    match parse2 rest with
    | none => none
    | some (h, rest) =>
      match parse2 rest with
      | none => none
      | some (m, rest) =>
        if m < 60 then some (-((h * 60 + m : Nat) : Int), rest) else none
  | _ =>
    match stripToken ['G', 'M', 'T'] cs with
    | some r => some (0, r)
    | none =>
    match stripToken ['U', 'T', 'C'] cs with
    | some r => some (0, r)
    | none =>
    match stripToken ['U', 'T'] cs with
    | some r => some (0, r)
    | none =>
    match stripToken ['E', 'S', 'T'] cs with
    | some r => some (-300, r)
    | none =>
    match stripToken ['E', 'D', 'T'] cs with
    | some r => some (-240, r)
    | none =>
    match stripToken ['C', 'S', 'T'] cs with
    | some r => some (-360, r)
    | none =>
    match stripToken ['C', 'D', 'T'] cs with
    | some r => some (-300, r)
    | none =>
    match stripToken ['M', 'S', 'T'] cs with
    | some r => some (-420, r)
    | none =>
    match stripToken ['M', 'D', 'T'] cs with
    | some r => some (-360, r)
    | none =>
    match stripToken ['P', 'S', 'T'] cs with
    | some r => some (-480, r)
    | none =>
    match stripToken ['P', 'D', 'T'] cs with
    | some r => some (-420, r)
    | none => none

/-- Consume a full RFC 2822 date-time, returning the optional weekday
index together with the raw fields; range checks happen afterwards. -/
def parseRaw (cs : List Char) : Option (Option Nat × DateTime2822) :=
  match parseDow cs with
  | (dow, cs) =>
  match parse1or2 cs with
  | none => none
  | some (day, cs) =>
  match expectChar ' ' cs with
  | none => none
  | some cs =>
  match parseMonth cs with
  | none => none
  | some (month, cs) =>
  match expectChar ' ' cs with
  | none => none
  | some cs =>
  match parse4 cs with
  | none => none
  | some (year, cs) =>
  match expectChar ' ' cs with
  | none => none
  | some cs =>
  match parse2 cs with
  | none => none
  | some (hour, cs) =>
  match expectChar ':' cs with
  | none => none
  | some cs =>
  match parse2 cs with
  | none => none
  | some (minute, cs) =>
  match expectChar ':' cs with
  | none => none
  | some cs =>
  match parse2 cs with
  | none => none
  | some (second, cs) =>
  match expectChar ' ' cs with
  | none => none
  | some cs =>
  match parseZone cs with
  | none => none
  | some (offset, cs) =>
  if cs = [] then
    some (dow, { year, month, day, hour, minute, second, offset })
  else
    none

/-- Field ranges a decoded timestamp always satisfies: a real calendar
date, a valid time of day, and an offset expressible as `±HHMM`. -/
def ValidDT (dt : DateTime2822) : Prop :=
  1 ≤ dt.month ∧ dt.month ≤ 12 ∧ 1 ≤ dt.day ∧ dt.day ≤ daysInMonth dt.year dt.month ∧
    dt.hour ≤ 23 ∧ dt.minute ≤ 59 ∧ dt.second ≤ 59 ∧ dt.year ≤ 9999 ∧
    dt.offset.natAbs ≤ 5999

instance (dt : DateTime2822) : Decidable (ValidDT dt) := by
  unfold ValidDT; infer_instance

/-- Modelled from the spec: decode of `recorded_at` text, failing on any
string outside the RFC 2822 grammar, on out-of-range fields, and on a named
weekday inconsistent with the date. -/
def parseRfc2822 (s : String) : Except String DateTime2822 :=
  match parseRaw s.toList with
  | none => .error ("invalid timestamp " ++ s)
  | some (dow, dt) =>
    if ValidDT dt ∧ (∀ w ∈ dow, w = weekdayOf dt.year dt.month dt.day) then
      .ok dt
    else
      .error ("invalid timestamp " ++ s)

/-- Render the UTC offset: zero as `GMT`, otherwise `±HHMM`. -/
def renderZone (ofs : Int) : List Char :=
  if ofs = 0 then ['G', 'M', 'T']
  else (if ofs < 0 then '-' else '+') ::
    (pad2 (ofs.natAbs / 60) ++ pad2 (ofs.natAbs % 60))

/-- Character-level RFC 2822 rendering with canonical spacing. -/
def renderChars (dt : DateTime2822) : List Char :=
  dayChars (weekdayOf dt.year dt.month dt.day) ++
    (',' :: ' ' ::
      (pad2 dt.day ++
        (' ' ::
          (monthChars dt.month ++
            (' ' ::
              (pad4 dt.year ++
                (' ' ::
                  (pad2 dt.hour ++
                    (':' ::
                      (pad2 dt.minute ++
                        (':' ::
                          (pad2 dt.second ++
                            (' ' :: renderZone dt.offset)))))))))))))

/-- Modelled from the spec: encode of `recorded_at`, rendering the instant
plus its retained offset back into canonical RFC 2822 text. -/
def renderRfc2822 (dt : DateTime2822) : String :=
  String.mk (renderChars dt)

/-! ### Schema model -/

/-- `type Headers = HashMap<String, Vec<String>>` from src/lib.rs, as an
association list of header name to ordered value list. -/
def Headers := List (String × List String)

instance : DecidableEq Headers := by
  unfold Headers; infer_instance

/-- `struct Status` from src/lib.rs; `code` is a `u16`, so decoding checks
the 16-bit range. -/
structure Status where
  code : Nat
  message : String
  deriving Repr, DecidableEq

/-- `struct Request` from src/lib.rs. -/
structure Request where
  uri : String
  body : Body
  method : Method
  headers : Headers
  deriving DecidableEq

/-- `struct Response` from src/lib.rs. -/
structure Response where
  body : Body
  http_version : Option Version
  status : Status
  headers : Headers
  deriving DecidableEq

/-- `struct HttpInteraction` from src/lib.rs. -/
structure HttpInteraction where
  response : Response
  request : Request
  recorded_at : DateTime2822
  deriving DecidableEq

/-- `struct Cassette` from src/lib.rs. -/
structure Cassette where
  http_interactions : List HttpInteraction
  recorded_with : String
  deriving DecidableEq

/-- Decode a required field of a derived struct: absence is a
missing-field error. -/
def reqField (fields : List (String × Json)) (name : String)
    (f : Json → Except String α) : Except String α :=
  match fields.lookup name with
  | none => .error ("missing field " ++ name)
  | some v => f v

/-- Decode an `Option<T>` field of a derived struct: a missing key and an
explicit null both give `none`. -/
def optField (fields : List (String × Json)) (name : String)
    (f : Json → Except String α) : Except String (Option α) :=
  match fields.lookup name with
  | none => .ok none
  | some .null => .ok none
  | some v => (f v).map some

/-- Decode a scalar string node. -/
def decodeString : Json → Except String String
  | .str s => .ok s
  | _ => .error "invalid type: expected string"

/-- Decode a sequence of scalar string nodes. -/
def decodeStrings : List Json → Except String (List String)
  | [] => .ok []
  | .str s :: rest => do
    let tl ← decodeStrings rest
    pure (s :: tl)
  | _ :: _ => .error "invalid type: expected string"

/-- Decode one `Headers` entry value. -/
def decodeHeaderValues : Json → Except String (List String)
  | .arr xs => decodeStrings xs
  | _ => .error "invalid type: expected sequence"

/-- Decode the entries of a `Headers` map in input order. -/
def decodeHeaderEntries : List (String × Json) → Except String Headers
  | [] => .ok []
  | (k, v) :: rest => do
    let vs ← decodeHeaderValues v
    let tl ← decodeHeaderEntries rest
    pure ((k, vs) :: tl)

/-- Decode a `Headers` map node. -/
def decodeHeaders : Json → Except String Headers
  | .obj fields => decodeHeaderEntries fields
  | _ => .error "invalid type: expected map"

/-- Encode a `Headers` value back to a map of sequences of strings. -/
def encodeHeaders (hs : Headers) : Json :=
  .obj (hs.map fun kv => (kv.1, .arr (kv.2.map .str)))

/-- Decode a `u16` field: an integer node within the 16-bit range. -/
def decodeU16 : Json → Except String Nat
  | .num n =>
    if 0 ≤ n ∧ n.toNat < 65536 then .ok n.toNat
    else .error "invalid value: out of range for u16"
  | _ => .error "invalid type: expected integer"

/-- Serde-derived `Deserialize` for `Status`. -/
def decodeStatus : Json → Except String Status
  | .obj fields => do
    let code ← reqField fields "code" decodeU16
    let message ← reqField fields "message" decodeString
    pure { code, message }
  | _ => .error "invalid type: expected map"

/-- Serde-derived `Serialize` for `Status`. -/
def encodeStatus (st : Status) : Json :=
  .obj [("code", .num st.code), ("message", .str st.message)]

/-- Serde-derived `Deserialize` for `Request`; the `body` field goes
through the `string_or_struct` adapter. -/
def decodeRequest : Json → Except String Request
  | .obj fields => do
    let uri ← reqField fields "uri" decodeString
    let body ← reqField fields "body" decodeBodyField
    let mth ← reqField fields "method" decodeMethod
    let headers ← reqField fields "headers" decodeHeaders
    pure { uri, body, method := mth, headers }
  | _ => .error "invalid type: expected map"

/-- Serde-derived `Serialize` for `Request`, fields in declaration order. -/
def encodeRequest (r : Request) : Json :=
  .obj [("uri", .str r.uri),
        ("body", encodeBody r.body),
        ("method", encodeMethod r.method),
        ("headers", encodeHeaders r.headers)]

/-- Serde-derived `Deserialize` for `Response`; `body` goes through
`string_or_struct`, `http_version` is an `Option<Version>` whose absence
yields `none`. -/
def decodeResponse : Json → Except String Response
  | .obj fields => do
    let body ← reqField fields "body" decodeBodyField
    let http_version ← optField fields "http_version" decodeVersion
    let status ← reqField fields "status" decodeStatus
    let headers ← reqField fields "headers" decodeHeaders
    pure { body, http_version, status, headers }
  | _ => .error "invalid type: expected map"

/-- Serde-derived `Serialize` for `Response`, fields in declaration order;
an absent version serializes as null. -/
def encodeResponse (r : Response) : Json :=
  .obj [("body", encodeBody r.body),
        ("http_version", match r.http_version with
                         | none => .null
                         | some v => encodeVersion v),
        ("status", encodeStatus r.status),
        ("headers", encodeHeaders r.headers)]

/-- Decode the `recorded_at` field: a string node parsed by the timestamp
codec. -/
def decodeRecordedAt : Json → Except String DateTime2822
  | .str s => parseRfc2822 s
  | _ => .error "invalid type: expected string"

/-- Serde-derived `Deserialize` for `HttpInteraction`. -/
def decodeInteraction : Json → Except String HttpInteraction
  | .obj fields => do
    let response ← reqField fields "response" decodeResponse
    let request ← reqField fields "request" decodeRequest
    let recorded_at ← reqField fields "recorded_at" decodeRecordedAt
    pure { response, request, recorded_at }
  | _ => .error "invalid type: expected map"

/-- Serde-derived `Serialize` for `HttpInteraction`, declaration order. -/
def encodeInteraction (i : HttpInteraction) : Json :=
  .obj [("response", encodeResponse i.response),
        ("request", encodeRequest i.request),
        ("recorded_at", .str (renderRfc2822 i.recorded_at))]

/-- Decode a sequence of interactions in order. -/
def decodeInteractions : List Json → Except String (List HttpInteraction)
  | [] => .ok []
  | j :: rest => do
    let i ← decodeInteraction j
    let tl ← decodeInteractions rest
    pure (i :: tl)

/-- Serde-derived `Deserialize` for `Cassette`. -/
def decodeCassette : Json → Except String Cassette
  | .obj fields => do
    let interactions ←
      reqField fields "http_interactions" fun j =>
        match j with
        | .arr xs => decodeInteractions xs
        | _ => .error "invalid type: expected sequence"
    let recorded_with ← reqField fields "recorded_with" decodeString
    pure { http_interactions := interactions, recorded_with }
  | _ => .error "invalid type: expected map"

/-- Serde-derived `Serialize` for `Cassette`, declaration order. -/
def encodeCassette (c : Cassette) : Json :=
  .obj [("http_interactions", .arr (c.http_interactions.map encodeInteraction)),
        ("recorded_with", .str c.recorded_with)]

/-! ### The documented example cassette

The structured form of the JSON document from the crate-level doc comment
of src/lib.rs, used as a concrete test vector. -/

/-- The example cassette document from the src/lib.rs doc comment. -/
def exampleDoc : Json :=
  .obj
    [("http_interactions",
      .arr
        [.obj
          [("request",
            .obj
              [("uri", .str "http://localhost:7777/foo"),
               ("body", .str ""),
               ("method", .str "get"),
               ("headers",
                .obj [("Accept-Encoding", .arr [.str "identity"])])]),
           ("response",
            .obj
              [("body", .str "Hello foo"),
               ("http_version", .str "1.1"),
               ("status",
                .obj [("code", .num 200), ("message", .str "OK")]),
               ("headers",
                .obj
                  [("Date", .arr [.str "Thu, 27 Oct 2011 06:16:31 GMT"]),
                   ("Content-Type", .arr [.str "text/html;charset=utf-8"]),
                   ("Content-Length", .arr [.str "9"])])]),
           ("recorded_at", .str "Tue, 01 Nov 2011 04:58:44 GMT")]]),
     ("recorded_with", .str "VCR 2.0.0")]

/-- The in-memory value the example document decodes to. -/
def exampleCassette : Cassette :=
  { http_interactions :=
      [{ response :=
          { body := { encoding := none, string := "Hello foo" },
            http_version := some .Http1_1,
            status := { code := 200, message := "OK" },
            headers :=
              [("Date", ["Thu, 27 Oct 2011 06:16:31 GMT"]),
               ("Content-Type", ["text/html;charset=utf-8"]),
               ("Content-Length", ["9"])] },
         request :=
          { uri := "http://localhost:7777/foo",
            body := { encoding := none, string := "" },
            method := .Get,
            headers := [("Accept-Encoding", ["identity"])] },
         recorded_at :=
          { year := 2011, month := 11, day := 1, hour := 4, minute := 58,
            second := 44, offset := 0 } }],
    recorded_with := "VCR 2.0.0" }

/-! ### Token-level lemmas for the timestamp codec -/

theorem digit?_digitChar (d : Nat) (h : d < 10) : digit? (digitChar d) = some d := by
  interval_cases d <;> decide

theorem parse2_pad2 (n : Nat) (h : n < 100) (rest : List Char) :
    parse2 (pad2 n ++ rest) = some (n, rest) := by
  have h1 : n / 10 < 10 := by omega
  have h2 : n % 10 < 10 := by omega
  have hn : n / 10 * 10 + n % 10 = n := by omega
  simp [pad2, parse2, digit?_digitChar _ h1, digit?_digitChar _ h2, hn]

theorem parse4_pad4 (n : Nat) (h : n < 10000) (rest : List Char) :
    parse4 (pad4 n ++ rest) = some (n, rest) := by
  have h1 : n / 1000 < 10 := by omega
  have h2 : n / 100 % 10 < 10 := by omega
  have h3 : n / 10 % 10 < 10 := by omega
  have h4 : n % 10 < 10 := by omega
  have hn : n / 1000 * 1000 + n / 100 % 10 * 100 + n / 10 % 10 * 10 + n % 10 = n := by
    omega
  simp [pad4, parse4, digit?_digitChar _ h1, digit?_digitChar _ h2,
    digit?_digitChar _ h3, digit?_digitChar _ h4, hn]

theorem parse1or2_pad2 (n : Nat) (h : n < 100) (rest : List Char) :
    parse1or2 (pad2 n ++ rest) = some (n, rest) := by
  have h1 : n / 10 < 10 := by omega
  have h2 : n % 10 < 10 := by omega
  have hn : n / 10 * 10 + n % 10 = n := by omega
  simp [pad2, parse1or2, digit?_digitChar _ h1, digit?_digitChar _ h2, hn]

theorem expectChar_cons (c : Char) (rest : List Char) :
    expectChar c (c :: rest) = some rest := by
  simp [expectChar]

theorem parseDow_day (w : Nat) (hw : w < 7) (rest : List Char) :
    parseDow (dayChars w ++ ',' :: ' ' :: rest) = (some w, rest) := by
  interval_cases w <;> rfl

theorem parseMonth_month (m : Nat) (h1 : 1 ≤ m) (h2 : m ≤ 12) (rest : List Char) :
    parseMonth (monthChars m ++ rest) = some (m, rest) := by
  interval_cases m <;> rfl

theorem parse2_pad2_nil (n : Nat) (h : n < 100) : parse2 (pad2 n) = some (n, []) := by
  simpa using parse2_pad2 n h []

theorem parseZone_renderZone (ofs : Int) (h : ofs.natAbs ≤ 5999) :
    parseZone (renderZone ofs) = some (ofs, []) := by
  rcases eq_or_ne ofs 0 with h0 | h0
  · subst h0; rfl
  · have ha : ofs.natAbs / 60 < 100 := by omega
    have hb : ofs.natAbs % 60 < 60 := by omega
    have hb' : ofs.natAbs % 60 < 100 := by omega
    rcases lt_or_gt_of_ne h0 with hneg | hpos
    · simp only [renderZone, if_neg h0, if_pos hneg, parseZone,
        parse2_pad2 _ ha, parse2_pad2_nil _ hb', if_pos hb,
        Option.some.injEq, Prod.mk.injEq, and_true]
      omega
    · simp only [renderZone, if_neg h0, if_neg (not_lt.mpr hpos.le), parseZone,
        parse2_pad2 _ ha, parse2_pad2_nil _ hb', if_pos hb,
        Option.some.injEq, Prod.mk.injEq, and_true]
      omega

theorem daysInMonth_le_31 (y m : Nat) : daysInMonth y m ≤ 31 := by
  unfold daysInMonth
  split_ifs <;> omega

theorem parseRaw_renderChars (dt : DateTime2822) (h : ValidDT dt) :
    parseRaw (renderChars dt) =
      some (some (weekdayOf dt.year dt.month dt.day), dt) := by
  obtain ⟨h1, h2, h3, h4, h5, h6, h7, h8, h9⟩ := h
  have hd31 : daysInMonth dt.year dt.month ≤ 31 := daysInMonth_le_31 _ _
  have hday : dt.day < 100 := by omega
  have hw : weekdayOf dt.year dt.month dt.day < 7 := Nat.mod_lt _ (by norm_num)
  simp only [renderChars, parseRaw, parseDow_day _ hw,
    parse1or2_pad2 _ hday, expectChar_cons, parseMonth_month _ h1 h2,
    parse4_pad4 _ (by omega : dt.year < 10000),
    parse2_pad2 dt.hour (by omega), parse2_pad2 dt.minute (by omega),
    parse2_pad2 dt.second (by omega), parseZone_renderZone _ h9,
    if_pos rfl]
  rfl

theorem parseRfc2822_ok_valid {s : String} {dt : DateTime2822}
    (h : parseRfc2822 s = .ok dt) : ValidDT dt := by
  unfold parseRfc2822 at h
  split at h
  · exact Except.noConfusion h
  · split at h
    · rename_i hc
      injection h with h
      subst h
      exact hc.1
    · exact Except.noConfusion h

theorem parseRfc2822_renderRfc2822 (dt : DateTime2822) (h : ValidDT dt) :
    parseRfc2822 (renderRfc2822 dt) = .ok dt := by
  unfold parseRfc2822 renderRfc2822
  have ht : (String.mk (renderChars dt)).toList = renderChars dt := rfl
  rw [ht, parseRaw_renderChars dt h]
  simp [h]

/-! ### Round-trip and validity lemmas for the schema codecs -/

theorem bind_ok_iff {α β : Type} {x : Except String α} {f : α → Except String β}
    {b : β} : (x >>= f) = Except.ok b ↔ ∃ a, x = .ok a ∧ f a = .ok b := by
  cases x <;> simp [Bind.bind, Except.bind]

theorem reqField_ok {α : Type} {fields : List (String × Json)} {name : String}
    {f : Json → Except String α} {a : α} (h : reqField fields name f = .ok a) :
    ∃ v, fields.lookup name = some v ∧ f v = .ok a := by
  unfold reqField at h
  cases hl : fields.lookup name with
  | none => rw [hl] at h; exact Except.noConfusion h
  | some v => rw [hl] at h; exact ⟨v, rfl, h⟩

theorem decodeMethod_encodeMethod (m : Method) :
    decodeMethod (encodeMethod m) = .ok m := by
  cases m <;> rfl

theorem decodeVersion_encodeVersion (v : Version) :
    decodeVersion (encodeVersion v) = .ok v := by
  cases v <;> rfl

theorem decodeBodyField_encodeBody (b : Body) :
    decodeBodyField (encodeBody b) = .ok b := by
  obtain ⟨enc, s⟩ := b
  cases enc <;> rfl

theorem decodeStrings_map (l : List String) :
    decodeStrings (l.map .str) = .ok l := by
  induction l with
  | nil => rfl
  | cons x xs ih =>
    simp [decodeStrings, ih, Bind.bind, Except.bind, pure, Except.pure]

theorem decodeHeaders_encodeHeaders (hs : Headers) :
    decodeHeaders (encodeHeaders hs) = .ok hs := by
  show decodeHeaderEntries _ = _
  induction hs with
  | nil => rfl
  | cons kv tl ih =>
    simp [decodeHeaderEntries, decodeHeaderValues, decodeStrings_map, ih,
      Bind.bind, Except.bind, pure, Except.pure]

theorem decodeU16_lt {j : Json} {n : Nat} (h : decodeU16 j = .ok n) :
    n < 65536 := by
  unfold decodeU16 at h
  split at h
  · rename_i m
    split at h
    · rename_i hm
      injection h with h
      omega
    · exact Except.noConfusion h
  · exact Except.noConfusion h

theorem decodeU16_natCast (n : Nat) (h : n < 65536) :
    decodeU16 (Json.num n) = .ok n := by
  show (if (0 : Int) ≤ (n : Int) ∧ ((n : Int)).toNat < 65536
        then Except.ok ((n : Int)).toNat
        else Except.error "invalid value: out of range for u16") = Except.ok n
  rw [if_pos ⟨Int.ofNat_nonneg _, by simpa using h⟩]
  simp

theorem decodeStatus_encodeStatus (st : Status) (h : st.code < 65536) :
    decodeStatus (encodeStatus st) = .ok st := by
  obtain ⟨code, message⟩ := st
  have e1 : decodeStatus (encodeStatus ⟨code, message⟩) =
      Except.bind (decodeU16 (Json.num (code : Int)))
        (fun c => Except.bind (decodeString (Json.str message))
          (fun s => Except.pure { code := c, message := s })) := rfl
  rw [e1, decodeU16_natCast code h]
  rfl

theorem decodeStatus_valid {j : Json} {st : Status}
    (h : decodeStatus j = .ok st) : st.code < 65536 := by
  unfold decodeStatus at h
  split at h
  · rw [bind_ok_iff] at h
    obtain ⟨code, hc, h⟩ := h
    rw [bind_ok_iff] at h
    obtain ⟨msg, hm, h⟩ := h
    simp only [pure, Except.pure, Except.ok.injEq] at h
    obtain ⟨v, _, hv⟩ := reqField_ok hc
    have hlt := decodeU16_lt hv
    subst h
    simpa using hlt
  · exact Except.noConfusion h

theorem decodeRequest_encodeRequest (r : Request) :
    decodeRequest (encodeRequest r) = .ok r := by
  obtain ⟨uri, body, mth, headers⟩ := r
  have e1 : decodeRequest (encodeRequest ⟨uri, body, mth, headers⟩) =
      Except.bind (decodeBodyField (encodeBody body))
        (fun b => Except.bind (decodeMethod (encodeMethod mth))
          (fun m => Except.bind (decodeHeaders (encodeHeaders headers))
            (fun hs => Except.pure
              { uri := uri, body := b, method := m, headers := hs }))) := rfl
  rw [e1, decodeBodyField_encodeBody, decodeMethod_encodeMethod,
    decodeHeaders_encodeHeaders]
  rfl

theorem decodeResponse_encodeResponse (r : Response)
    (h : r.status.code < 65536) :
    decodeResponse (encodeResponse r) = .ok r := by
  obtain ⟨body, hv, status, headers⟩ := r
  cases hv with
  | none =>
    have e1 : decodeResponse (encodeResponse ⟨body, none, status, headers⟩) =
        Except.bind (decodeBodyField (encodeBody body))
          (fun b => Except.bind (decodeStatus (encodeStatus status))
            (fun st => Except.bind (decodeHeaders (encodeHeaders headers))
              (fun hs => Except.pure
                { body := b, http_version := none, status := st,
                  headers := hs }))) := rfl
    rw [e1, decodeBodyField_encodeBody, decodeStatus_encodeStatus status h,
      decodeHeaders_encodeHeaders]
    rfl
  | some v =>
    have e1 : decodeResponse (encodeResponse ⟨body, some v, status, headers⟩) =
        Except.bind (decodeBodyField (encodeBody body))
          (fun b => Except.bind
            (Except.map some (decodeVersion (encodeVersion v)))
            (fun hver => Except.bind (decodeStatus (encodeStatus status))
              (fun st => Except.bind (decodeHeaders (encodeHeaders headers))
                (fun hs => Except.pure
                  { body := b, http_version := hver, status := st,
                    headers := hs })))) := rfl
    rw [e1, decodeBodyField_encodeBody, decodeVersion_encodeVersion,
      decodeStatus_encodeStatus status h, decodeHeaders_encodeHeaders]
    rfl

/-- Field constraints every decoded interaction satisfies. -/
def ValidInteraction (i : HttpInteraction) : Prop :=
  i.response.status.code < 65536 ∧ ValidDT i.recorded_at

/-- Field constraints every decoded cassette satisfies. -/
def ValidCassette (c : Cassette) : Prop :=
  ∀ i ∈ c.http_interactions, ValidInteraction i

theorem decodeInteraction_encodeInteraction (i : HttpInteraction)
    (h : ValidInteraction i) :
    decodeInteraction (encodeInteraction i) = .ok i := by
  obtain ⟨resp, req, dt⟩ := i
  obtain ⟨hcode, hdt⟩ := h
  have e1 : decodeInteraction (encodeInteraction ⟨resp, req, dt⟩) =
      Except.bind (decodeResponse (encodeResponse resp))
        (fun r => Except.bind (decodeRequest (encodeRequest req))
          (fun q => Except.bind (parseRfc2822 (renderRfc2822 dt))
            (fun d => Except.pure
              { response := r, request := q, recorded_at := d }))) := rfl
  rw [e1, decodeResponse_encodeResponse resp hcode,
    decodeRequest_encodeRequest, parseRfc2822_renderRfc2822 dt hdt]
  rfl

theorem decodeInteractions_map (l : List HttpInteraction)
    (h : ∀ i ∈ l, ValidInteraction i) :
    decodeInteractions (l.map encodeInteraction) = .ok l := by
  induction l with
  | nil => rfl
  | cons x xs ih =>
    have hx := h x (by simp)
    have hxs := ih fun i hi => h i (by simp [hi])
    have e1 : decodeInteractions ((x :: xs).map encodeInteraction) =
        Except.bind (decodeInteraction (encodeInteraction x))
          (fun i => Except.bind (decodeInteractions (xs.map encodeInteraction))
            (fun tl => Except.pure (i :: tl))) := rfl
    rw [e1, decodeInteraction_encodeInteraction x hx, hxs]
    rfl

theorem decodeCassette_encodeCassette (c : Cassette) (h : ValidCassette c) :
    decodeCassette (encodeCassette c) = .ok c := by
  obtain ⟨ints, rid⟩ := c
  have e1 : decodeCassette (encodeCassette ⟨ints, rid⟩) =
      Except.bind (decodeInteractions (ints.map encodeInteraction))
        (fun l => Except.pure
          { http_interactions := l, recorded_with := rid }) := rfl
  rw [e1, decodeInteractions_map ints h]
  rfl

theorem decodeResponse_valid {j : Json} {r : Response}
    (h : decodeResponse j = .ok r) : r.status.code < 65536 := by
  unfold decodeResponse at h
  split at h
  · rw [bind_ok_iff] at h
    obtain ⟨b, hb, h⟩ := h
    rw [bind_ok_iff] at h
    obtain ⟨hv, hhv, h⟩ := h
    rw [bind_ok_iff] at h
    obtain ⟨st, hst, h⟩ := h
    rw [bind_ok_iff] at h
    obtain ⟨hs, hhs, h⟩ := h
    simp only [pure, Except.pure, Except.ok.injEq] at h
    obtain ⟨v, _, hv2⟩ := reqField_ok hst
    have hlt := decodeStatus_valid hv2
    subst h
    simpa using hlt
  · exact Except.noConfusion h

theorem decodeRecordedAt_valid {j : Json} {dt : DateTime2822}
    (h : decodeRecordedAt j = .ok dt) : ValidDT dt := by
  cases j <;> try exact Except.noConfusion h
  exact parseRfc2822_ok_valid h

theorem decodeInteraction_valid {j : Json} {i : HttpInteraction}
    (h : decodeInteraction j = .ok i) : ValidInteraction i := by
  unfold decodeInteraction at h
  split at h
  · rw [bind_ok_iff] at h
    obtain ⟨resp, hresp, h⟩ := h
    rw [bind_ok_iff] at h
    obtain ⟨req, hreq, h⟩ := h
    rw [bind_ok_iff] at h
    obtain ⟨dt, hdt, h⟩ := h
    simp only [pure, Except.pure, Except.ok.injEq] at h
    obtain ⟨v1, _, hv1⟩ := reqField_ok hresp
    obtain ⟨v3, _, hv3⟩ := reqField_ok hdt
    have hr := decodeResponse_valid hv1
    have hd := decodeRecordedAt_valid hv3
    subst h
    exact ⟨hr, hd⟩
  · exact Except.noConfusion h

theorem decodeInteractions_valid {xs : List Json} {l : List HttpInteraction}
    (h : decodeInteractions xs = .ok l) : ∀ i ∈ l, ValidInteraction i := by
  induction xs generalizing l with
  | nil =>
    unfold decodeInteractions at h
    injection h with h
    subst h
    intro i hi
    exact absurd hi (List.not_mem_nil i)
  | cons j rest ih =>
    unfold decodeInteractions at h
    rw [bind_ok_iff] at h
    obtain ⟨i, hi, h⟩ := h
    rw [bind_ok_iff] at h
    obtain ⟨tl, htl, h⟩ := h
    simp only [pure, Except.pure, Except.ok.injEq] at h
    subst h
    intro x hx
    rcases List.mem_cons.mp hx with hx | hx
    · subst hx
      exact decodeInteraction_valid hi
    · exact ih htl x hx

theorem decodeCassette_valid {j : Json} {c : Cassette}
    (h : decodeCassette j = .ok c) : ValidCassette c := by
  unfold decodeCassette at h
  split at h
  · rw [bind_ok_iff] at h
    obtain ⟨ints, hints, h⟩ := h
    rw [bind_ok_iff] at h
    obtain ⟨rid, hrid, h⟩ := h
    simp only [pure, Except.pure, Except.ok.injEq] at h
    obtain ⟨v, _, hv⟩ := reqField_ok hints
    subst h
    intro i hi
    split at hv
    · exact decodeInteractions_valid hv i hi
    · exact Except.noConfusion hv
  · exact Except.noConfusion h

/-! ### Claim theorems -/

/-- C1 counterexample: decoding the bare string node `"PROPFIND"` does not
succeed with the fallback variant; the derived externally tagged decoder
rejects it as an unknown variant, so the claim as stated is false. -/
theorem c1_method_decode_counterexample :
    decodeMethod (Json.str "PROPFIND") = .error "unknown variant PROPFIND" ∧
      decodeMethod (Json.str "PROPFIND") ≠ .ok (Method.Other "PROPFIND") :=
  ⟨rfl, fun h => Except.noConfusion h⟩

/-- C1 (amended): decoding a bare-string Method node succeeds exactly on
the nine lowercase tokens; any other bare string (including a differently
cased known verb) is a decode failure, and the fallback variant `Other` is
produced only by the externally tagged single-entry map form. -/
theorem c1_method_decode_corrected :
    decodeMethod (.str "connect") = .ok .Connect ∧
      decodeMethod (.str "delete") = .ok .Delete ∧
      decodeMethod (.str "get") = .ok .Get ∧
      decodeMethod (.str "head") = .ok .Head ∧
      decodeMethod (.str "options") = .ok .Options ∧
      decodeMethod (.str "patch") = .ok .Patch ∧
      decodeMethod (.str "post") = .ok .Post ∧
      decodeMethod (.str "put") = .ok .Put ∧
      decodeMethod (.str "trace") = .ok .Trace ∧
      (∀ s : String, s ≠ "connect" → s ≠ "delete" → s ≠ "get" → s ≠ "head" →
        s ≠ "options" → s ≠ "patch" → s ≠ "post" → s ≠ "put" → s ≠ "trace" →
        ∃ e, decodeMethod (.str s) = .error e) ∧
      (∀ s : String, decodeMethod (.obj [("other", .str s)]) =
        .ok (.Other s)) := by
  refine ⟨rfl, rfl, rfl, rfl, rfl, rfl, rfl, rfl, rfl, ?_, fun s => rfl⟩
  intro s h1 h2 h3 h4 h5 h6 h7 h8 h9
  have hu : unitMethodOfToken s = none := by
    simp [unitMethodOfToken, h1, h2, h3, h4, h5, h6, h7, h8, h9]
  simp only [decodeMethod, hu]
  by_cases hs : s = "other"
  · exact ⟨_, by rw [if_pos hs]⟩
  · exact ⟨_, by rw [if_neg hs]⟩

/-- C1 witness: the amended failure branch applied at the concrete input
`"PROPFIND"`. -/
theorem c1_method_decode_witness :
    ∃ e, decodeMethod (.str "PROPFIND") = .error e :=
  c1_method_decode_corrected.2.2.2.2.2.2.2.2.2.1 "PROPFIND" (by decide)
    (by decide) (by decide) (by decide) (by decide) (by decide) (by decide)
    (by decide) (by decide)

/-- C2 counterexample: the fallback variant does not emit a bare string
node holding its stored string; it emits the externally tagged map form. -/
theorem c2_method_encode_counterexample :
    encodeMethod (Method.Other "PROPFIND") ≠ Json.str "PROPFIND" :=
  fun h => Json.noConfusion h

/-- C2 (amended): each named Method variant emits its fixed lowercase
token as a string node; the fallback `Other(s)` emits the externally
tagged map whose payload is the stored string `s` unchanged, and decoding
any encoded Method recovers it exactly (so the stated round trip
`decode(encode(Other(s))) = Other(s)` does hold). -/
theorem c2_method_encode_corrected :
    (encodeMethod .Connect = .str "connect" ∧
      encodeMethod .Delete = .str "delete" ∧
      encodeMethod .Get = .str "get" ∧
      encodeMethod .Head = .str "head" ∧
      encodeMethod .Options = .str "options" ∧
      encodeMethod .Patch = .str "patch" ∧
      encodeMethod .Post = .str "post" ∧
      encodeMethod .Put = .str "put" ∧
      encodeMethod .Trace = .str "trace") ∧
      (∀ s, encodeMethod (.Other s) = .obj [("other", .str s)]) ∧
      (∀ m, decodeMethod (encodeMethod m) = .ok m) :=
  ⟨⟨rfl, rfl, rfl, rfl, rfl, rfl, rfl, rfl, rfl⟩, fun _ => rfl,
    decodeMethod_encodeMethod⟩

/-- C3: for every cassette obtained by decoding some document, decoding
the document produced by encoding it yields a structurally equal cassette
(the `http_interactions` sequence, its order and length included). -/
theorem c3_cassette_round_trip (doc : Json) (c : Cassette)
    (h : decodeCassette doc = .ok c) :
    decodeCassette (encodeCassette c) = .ok c :=
  decodeCassette_encodeCassette c (decodeCassette_valid h)

/-- C3 witness: the round trip applied to the documented example
cassette. -/
theorem c3_cassette_round_trip_witness :
    decodeCassette exampleDoc = .ok exampleCassette ∧
      decodeCassette (encodeCassette exampleCassette) = .ok exampleCassette :=
  ⟨rfl, c3_cassette_round_trip exampleDoc exampleCassette rfl⟩

/-- C4: Version decoding succeeds exactly on the five literal tokens with
the documented mapping, fails on every other token (no fallback), and each
variant encodes to exactly its token. -/
theorem c4_version_codec :
    decodeVersion (.str "0.9") = .ok .Http0_9 ∧
      decodeVersion (.str "1.0") = .ok .Http1_0 ∧
      decodeVersion (.str "1.1") = .ok .Http1_1 ∧
      decodeVersion (.str "2") = .ok .Http2_0 ∧
      decodeVersion (.str "3") = .ok .Http3_0 ∧
      (∀ s : String, s ≠ "0.9" → s ≠ "1.0" → s ≠ "1.1" → s ≠ "2" → s ≠ "3" →
        ∃ e, decodeVersion (.str s) = .error e) ∧
      encodeVersion .Http0_9 = .str "0.9" ∧
      encodeVersion .Http1_0 = .str "1.0" ∧
      encodeVersion .Http1_1 = .str "1.1" ∧
      encodeVersion .Http2_0 = .str "2" ∧
      encodeVersion .Http3_0 = .str "3" := by
  refine ⟨rfl, rfl, rfl, rfl, rfl, ?_, rfl, rfl, rfl, rfl, rfl⟩
  intro s h1 h2 h3 h4 h5
  have hu : versionOfToken s = none := by
    simp [versionOfToken, h1, h2, h3, h4, h5]
  exact ⟨"unknown variant " ++ s, by simp only [decodeVersion, hu]⟩

/-- C4 witness: the failure branch applied at the concrete token
`"9.9"`. -/
theorem c4_version_codec_witness :
    ∃ e, decodeVersion (.str "9.9") = .error e :=
  c4_version_codec.2.2.2.2.2.1 "9.9" (by decide) (by decide) (by decide)
    (by decide) (by decide)

/-- C5: decoding a body from a scalar string node always succeeds with
`encoding = none` and the string taken verbatim, for every string
including the empty one; the error branch of the scalar conversion is
unreachable because its error type is uninhabited. -/
theorem c5_body_scalar_infallible :
    (∀ s : String, Body.from_str s = .ok { encoding := none, string := s }) ∧
      (∀ s : String,
        decodeBodyField (.str s) = .ok { encoding := none, string := s }) ∧
      (∀ (s : String) (e : Empty), Body.from_str s ≠ .error e) :=
  ⟨fun _ => rfl, fun _ => rfl, fun _ e => e.elim⟩

/-- C6: decoding a body from an object requires the `string` key (absence
makes the whole decode fail, with a missing-field error when the other
fields are well formed), while `encoding` is optional: absent gives
`none`, present gives `some`. -/
theorem c6_body_object_fields :
    (∀ fields : List (String × Json), fields.lookup "string" = none →
        ∃ e, decodeBodyStruct fields = .error e) ∧
      decodeBodyStruct [("encoding", .str "base64")] =
        .error "missing field string" ∧
      (∀ s, decodeBodyStruct [("string", .str s)] =
        .ok { encoding := none, string := s }) ∧
      (∀ enc s, decodeBodyStruct [("encoding", .str enc), ("string", .str s)] =
        .ok { encoding := some enc, string := s }) := by
  refine ⟨?_, rfl, fun s => rfl, fun enc s => rfl⟩
  intro fields h
  cases he : fields.lookup "encoding" with
  | none =>
    exact ⟨"missing field string", by simp only [decodeBodyStruct, he, h,
      Bind.bind, Except.bind, pure, Except.pure]⟩
  | some v =>
    cases hd : decodeOptString v with
    | error e =>
      exact ⟨e, by simp only [decodeBodyStruct, he, hd, Bind.bind,
        Except.bind]⟩
    | ok enc =>
      exact ⟨"missing field string", by simp only [decodeBodyStruct, he, hd,
        h, Bind.bind, Except.bind]⟩

/-- C6 witness: the missing-`string` branch applied at the concrete object
holding only an `encoding` entry. -/
theorem c6_body_object_fields_witness :
    List.lookup "string" [("encoding", Json.str "base64")] = none ∧
      ∃ e, decodeBodyStruct [("encoding", Json.str "base64")] = .error e :=
  ⟨rfl, c6_body_object_fields.1 _ rfl⟩

/-- C7: encoding any Body always produces the structured object form with
the `encoding` and `string` fields, never a bare string node, and decoding
that object recovers the same Body (so a Body decoded from a bare scalar
re-encodes to the object form with `encoding = none`). -/
theorem c7_body_encode_object (b : Body) :
    (∀ s, encodeBody b ≠ .str s) ∧
      (∃ fields, encodeBody b = .obj fields ∧
        fields.map Prod.fst = ["encoding", "string"] ∧
        fields.lookup "string" = some (.str b.string)) ∧
      decodeBodyField (encodeBody b) = .ok b :=
  ⟨fun _ h => Json.noConfusion h, ⟨_, rfl, rfl, rfl⟩,
    decodeBodyField_encodeBody b⟩

/-- C8: in a Response, an absent `http_version` key decodes to `none`,
while a present `http_version` holding a token outside the five recognized
ones makes the whole response decode fail. -/
theorem c8_http_version_optional :
    (∀ (fields : List (String × Json)) (r : Response),
        fields.lookup "http_version" = none →
        decodeResponse (.obj fields) = .ok r → r.http_version = none) ∧
      (∀ (fields : List (String × Json)) (s : String),
        fields.lookup "http_version" = some (.str s) →
        s ≠ "0.9" → s ≠ "1.0" → s ≠ "1.1" → s ≠ "2" → s ≠ "3" →
        ∀ r : Response, decodeResponse (.obj fields) ≠ .ok r) := by
  constructor
  · intro fields r hnone hok
    unfold decodeResponse at hok
    rw [bind_ok_iff] at hok
    obtain ⟨b, hb, hok⟩ := hok
    rw [bind_ok_iff] at hok
    obtain ⟨hv, hhv, hok⟩ := hok
    rw [bind_ok_iff] at hok
    obtain ⟨st, hst, hok⟩ := hok
    rw [bind_ok_iff] at hok
    obtain ⟨hs, hhs, hok⟩ := hok
    simp only [pure, Except.pure, Except.ok.injEq] at hok
    simp only [optField, hnone, Except.ok.injEq] at hhv
    subst hok
    simp [← hhv]
  · intro fields s hsome h1 h2 h3 h4 h5 r hok
    unfold decodeResponse at hok
    rw [bind_ok_iff] at hok
    obtain ⟨b, hb, hok⟩ := hok
    rw [bind_ok_iff] at hok
    obtain ⟨hv, hhv, hok⟩ := hok
    have hu : versionOfToken s = none := by
      simp [versionOfToken, h1, h2, h3, h4, h5]
    simp only [optField, hsome, decodeVersion, hu, Except.map] at hhv
    exact Except.noConfusion hhv

/-- C8 witness: both branches applied at concrete response documents, one
without an `http_version` key and one holding the unknown token `"9.9"`. -/
theorem c8_http_version_optional_witness :
    decodeResponse (.obj [("body", .str "x"),
        ("status", .obj [("code", .num 200), ("message", .str "OK")]),
        ("headers", .obj [])]) =
      .ok { body := { encoding := none, string := "x" },
            http_version := none,
            status := { code := 200, message := "OK" }, headers := [] } ∧
      ({ body := { encoding := none, string := "x" }, http_version := none,
         status := { code := 200, message := "OK" },
         headers := ([] : Headers) } : Response).http_version = none ∧
      decodeResponse (.obj [("body", .str "x"),
          ("http_version", .str "9.9"),
          ("status", .obj [("code", .num 200), ("message", .str "OK")]),
          ("headers", .obj [])]) ≠
        .ok { body := { encoding := none, string := "x" },
              http_version := none,
              status := { code := 200, message := "OK" }, headers := [] } :=
  ⟨rfl,
    c8_http_version_optional.1
      [("body", .str "x"),
       ("status", .obj [("code", .num 200), ("message", .str "OK")]),
       ("headers", .obj [])]
      { body := { encoding := none, string := "x" }, http_version := none,
        status := { code := 200, message := "OK" }, headers := [] }
      rfl rfl,
    c8_http_version_optional.2
      [("body", .str "x"), ("http_version", .str "9.9"),
       ("status", .obj [("code", .num 200), ("message", .str "OK")]),
       ("headers", .obj [])]
      "9.9" rfl (by decide) (by decide) (by decide) (by decide) (by decide)
      { body := { encoding := none, string := "x" }, http_version := none,
        status := { code := 200, message := "OK" }, headers := [] }⟩

/-- C9: decoding the documented `recorded_at` string yields the instant
2011-11-01T04:58:44 at fixed offset +00:00, re-encoding that value
reproduces the identical string, and strings outside the RFC 2822 grammar
are decode failures (shown at concrete ill-formed inputs). -/
theorem c9_recorded_at_example :
    parseRfc2822 "Tue, 01 Nov 2011 04:58:44 GMT" =
        .ok { year := 2011, month := 11, day := 1, hour := 4, minute := 58,
              second := 44, offset := 0 } ∧
      renderRfc2822 { year := 2011, month := 11, day := 1, hour := 4,
                      minute := 58, second := 44, offset := 0 } =
        "Tue, 01 Nov 2011 04:58:44 GMT" ∧
      (∃ e, parseRfc2822 "2011-11-01T04:58:44Z" = .error e) ∧
      (∃ e, parseRfc2822 "Tue, 01 Nov 2011 04:58:44" = .error e) :=
  ⟨rfl, rfl, ⟨_, rfl⟩, ⟨_, rfl⟩⟩

/-- C10: the derived order on Version is the declaration order, a strict
total order with the chain 0.9 < 1.0 < 1.1 < 2.0 < 3.0, and equality on
Version is reflexive discrimination of the five variants. -/
theorem c10_version_order :
    (versionLt .Http0_9 .Http1_0 = true ∧ versionLt .Http1_0 .Http1_1 = true ∧
      versionLt .Http1_1 .Http2_0 = true ∧
      versionLt .Http2_0 .Http3_0 = true) ∧
      (∀ a b : Version, versionEq a b = true ↔ a = b) ∧
      (∀ a b : Version,
        versionLt a b = true ∨ a = b ∨ versionLt b a = true) ∧
      (∀ a b c : Version, versionLt a b = true → versionLt b c = true →
        versionLt a c = true) ∧
      (∀ a : Version, versionLt a a = false) := by
  decide

/-- C10 witness: transitivity applied along the chain at concrete
variants. -/
theorem c10_version_order_witness :
    versionLt .Http0_9 .Http1_1 = true :=
  c10_version_order.2.2.2.1 .Http0_9 .Http1_0 .Http1_1 (by decide)
    (by decide)

end Vcr
